import Mathlib

/-!
Verification of the Template Rendering & PDF Synthesis Pipeline of
`src/index.js` (the `/pdf` endpoint and its in-page mutation script).

The development shallowly embeds the JavaScript source:

* JS string operations (`startsWith`, `includes`, `trim`) are modelled as
  structural functions over `String.data` (the underlying `List Char`);
* the field map of a request is a `List (String × FieldValue)` in insertion
  order (JS object iteration order for string keys);
* the asset-resolution loop (lines 203-229), the in-page mutation passes
  (lines 272-366) and the request handler control flow (lines 187-421) are
  embedded as pure functions, with the outcomes of external collaborators
  (the backing-service `fetch`, image decoding, WHATWG URL parsing, CSS
  selector parsing, stage exceptions) passed in as explicit oracles;
* geometry is exact rational arithmetic (`ℚ`), matching the numeric
  expressions of the source evaluated without rounding.
-/

/-! ### JS string primitives (modelled over `String.data`) -/

/-- Boolean test that `pre` is an initial segment of `l`; the model of
JS `String.prototype.startsWith` below is stated through it. -/
def listIsPre : List Char → List Char → Bool
  | [], _ => true
  | _ :: _, [] => false
  | a :: as, b :: bs => a == b && listIsPre as bs

/-- Boolean test that `pat` occurs as a contiguous run inside the second list;
used to model JS `String.prototype.includes`. -/
def listHasSub (pat : List Char) : List Char → Bool
  | [] => pat.isEmpty
  | c :: cs => listIsPre pat (c :: cs) || listHasSub pat cs

/-- Model of JS `s.startsWith(pre)`. -/
def strStarts (s pre : String) : Bool := listIsPre pre.data s.data

/-- Model of JS `s.includes(pat)` (used for `error.message.includes(...)`
in the catch block, lines 404-411). -/
def jsIncludes (s pat : String) : Bool := listHasSub pat.data s.data

/-- Whitespace dropper for the model of JS `String.prototype.trim`. -/
def dropLeadingWS : List Char → List Char
  | [] => []
  | c :: cs =>
    if c == ' ' || c == '\t' || c == '\n' || c == '\r' then dropLeadingWS cs
    else c :: cs

/-- Model of JS `s.trim()` (used on `input.name` and the canvas `name`
attribute, lines 290 and 339). -/
def jsTrim (s : String) : String :=
  ⟨(dropLeadingWS (dropLeadingWS s.data).reverse).reverse⟩

/-! ### Field values -/

/-- A JSON value that can appear in the request's `fields` map.  The spec's
data model declares `map<string,string>`, but the checkbox branch of the
in-page script (line 281) compares against the literal boolean `true`, so the
embedding keeps strings, booleans and `null`. -/
inductive FieldValue
  | str (s : String)
  | boolean (b : Bool)
  | null
deriving DecidableEq

/-- JS truthiness of a field value: `null`, `false` and the empty string are
falsy (`if (!data) continue;`, line 206). -/
def fvFalsy : FieldValue → Bool
  | FieldValue.null => true
  | FieldValue.boolean b => !b
  | FieldValue.str s => s.data.isEmpty

/-- The only `fields` value of this embedding on which line 207
(`data.startsWith('http://')`) raises a TypeError: a truthy non-string,
i.e. the literal boolean `true`. -/
def fvThrows : FieldValue → Bool
  | FieldValue.boolean true => true
  | _ => false

/-- The scheme test of line 207:
`data.startsWith('http://') || data.startsWith('https://')`. -/
def hasScheme (s : String) : Bool :=
  strStarts s "http://" || strStarts s "https://"

/-! ### Asset Resolver (lines 202-229) -/

/-- Outcome of the outbound `fetch` to the backing service for one reference
token.  `networkError` is a rejected fetch promise; `response st txt` is an
HTTP response with status `st` whose `.text()` either resolves to a body
(`some body`) or itself throws (`none`).  `fetch` resolves for every HTTP
response regardless of status, so non-2xx responses appear as `response`. -/
inductive FetchOutcome
  | networkError (msg : String)
  | response (status : Nat) (text : Option String)
deriving DecidableEq

/-- Per-entry behaviour of the resolution loop body (lines 204-228) for a
non-throwing value.  Result: the value stored in `fieldData` for this key
(`none` = no entry written, `some none` = JS `null`, `some (some body)` =
the response text), paired with whether an outbound fetch was issued.
The catch block (lines 223-226) stores `null` on any throw inside the `try`;
the response status is never inspected. -/
def resolveField (f : String → FetchOutcome) (v : FieldValue) :
    Option (Option String) × Bool :=
  match v with
  | FieldValue.null => (none, false)
  | FieldValue.boolean _ => (none, false)
  | FieldValue.str s =>
    if s.data.isEmpty then (none, false)
    else if hasScheme s then
      match f s with
      | FetchOutcome.networkError _ => (some none, true)
      | FetchOutcome.response _ none => (some none, true)
      | FetchOutcome.response _ (some body) => (some (some body), true)
    else (none, false)

/-- The entry a non-throwing field contributes to `fieldData`, if any. -/
def resolveEntryOk (f : String → FetchOutcome) (kv : String × FieldValue) :
    Option (String × Option String) :=
  match (resolveField f kv.2).1 with
  | none => none
  | some d => some (kv.1, d)

/-- The whole resolution loop (lines 204-229): entries are processed in
iteration order; a truthy non-string value makes `data.startsWith` throw a
TypeError that escapes to the outer catch (it is outside the inner `try`). -/
def resolveFields (f : String → FetchOutcome) :
    List (String × FieldValue) → Except String (List (String × Option String))
  | [] => Except.ok []
  | (k, v) :: rest =>
    if fvThrows v then Except.error "data.startsWith is not a function"
    else
      match (resolveField f v).1 with
      | none => resolveFields f rest
      | some d => (resolveFields f rest).map (fun tl => (k, d) :: tl)

/-! ### Page geometry and the slicing loop (lines 267-269, 301-319, 346-363) -/

/-- `const PDF_MARGIN = 40;` (line 267). -/
def PDF_MARGIN : ℚ := 40

/-- `const PAGE_WIDTH = 595 - 2 * PDF_MARGIN;` (line 268). -/
def PAGE_WIDTH : ℚ := 595 - 2 * PDF_MARGIN

/-- `const PAGE_HEIGHT = 842 - 2 * PDF_MARGIN;` (line 269). -/
def PAGE_HEIGHT : ℚ := 842 - 2 * PDF_MARGIN

/-- Scaled height of a decoded image of width `w` and height `h`:
`scale = Math.min(1, PAGE_WIDTH / img.width); height = img.height * scale`
(lines 302-304 and 347-349), with the page content width a parameter. -/
def scaledHeight (pw w h : ℚ) : ℚ := h * min 1 (pw / w)

/-- Fuel for the embedded slicing loop: the number of iterations the source
loop performs, `⌈height / PH⌉`. `sliceLoop_fuel_irrelevant` below shows any
fuel at least this large yields the same list, so the fuel is an artifact of
totality, not a semantic bound. -/
def sliceCount (ph height : ℚ) : ℕ := (Int.ceil (height / ph)).toNat

/-- The slicing loop shared by the file-input pass (lines 307-319) and the
signature-canvas pass (lines 352-363):

`while (yOffset < height) { sliceHeight = Math.min(PAGE_HEIGHT, height - yOffset); ...; yOffset += sliceHeight; }`

Each produced pair is `(yOffset, sliceHeight)` for one canvas fragment, in
creation order (top to bottom of the source image). -/
def sliceLoop (ph : ℚ) : ℕ → ℚ → ℚ → List (ℚ × ℚ)
  | 0, _, _ => []
  | n + 1, yOffset, height =>
    if yOffset < height then
      (yOffset, min ph (height - yOffset)) ::
        sliceLoop ph n (yOffset + min ph (height - yOffset)) height
    else []

/-- All slices of an image of scaled height `height`, as the source loop
produces them starting from `yOffset = 0`. -/
def imageSlices (ph height : ℚ) : List (ℚ × ℚ) :=
  sliceLoop ph (sliceCount ph height) 0 height

/-! ### Document Mutator: field fill (lines 272-285) -/

/-- The control-kind dispatch of the field-fill pass: file inputs are skipped
(line 277), `select` elements get a synthetic option (line 279),
checkbox/radio controls get `checked` (line 281), any other element with a
settable `value` property gets the value (line 283), and elements without a
`value` property are left alone. -/
inductive ControlKind
  | fileInput
  | selectTag
  | checkbox
  | radio
  | valueInput
  | plain
deriving DecidableEq

/-- A DOM element candidate for the field-fill pass: its `name` and `id`
attributes, its kind, and the mutable state the pass can touch. -/
structure Control where
  nameAttr : Option String
  idAttr : Option String
  kind : ControlKind
  value : String
  checked : Bool
  selectedOption : Option String
deriving DecidableEq

/-- Line 281: `el.checked = value === true || value === 'Yes' || value === 'true';`.
Strict equality: the string comparisons are case-sensitive and exact. -/
def checkboxChecked : FieldValue → Bool
  | FieldValue.boolean true => true
  | FieldValue.str s => s == "Yes" || s == "true"
  | _ => false

/-- JS template-literal coercion `${value}` (line 279): `null` prints as
"null", booleans as "true"/"false". -/
def jsTemplateStr : FieldValue → String
  | FieldValue.null => "null"
  | FieldValue.str s => s
  | FieldValue.boolean b => if b then "true" else "false"

/-- Line 283: `el.value = value ?? '';` — nullish coalescing, then JS
assignment coercion to string for booleans. -/
def jsValueCoerce : FieldValue → String
  | FieldValue.null => ""
  | FieldValue.str s => s
  | FieldValue.boolean b => if b then "true" else "false"

/-- The mutation one matched control receives from the field-fill dispatch
(lines 277-284). -/
def applyField (c : Control) (v : FieldValue) : Control :=
  match c.kind with
  | ControlKind.fileInput => c
  | ControlKind.selectTag => { c with selectedOption := some (jsTemplateStr v) }
  | ControlKind.checkbox => { c with checked := checkboxChecked v }
  | ControlKind.radio => { c with checked := checkboxChecked v }
  | ControlKind.valueInput => { c with value := jsValueCoerce v }
  | ControlKind.plain => c

/-- Line 275: `document.querySelector(`[name="${name}"]`) || document.getElementById(name)` —
first element with the `name` attribute in document order, else the element
with that id. -/
def findControl (doc : List Control) (name : String) : Option ℕ :=
  match doc.findIdx? (fun c => c.nameAttr == some name) with
  | some i => some i
  | none => doc.findIdx? (fun c => c.idAttr == some name)

/-- The SyntaxError raised by `querySelector` on an invalid interpolated
selector, as surfaced through `page.evaluate` into the outer catch. -/
def selectorErrorMsg : String :=
  "Failed to execute querySelector: the given selector is not valid"

/-- CSS selector validity is platform behaviour: the handler interpolates the
raw field name into `[name="<name>"]` with no escaping, so a name containing
an unescaped double quote terminates the attribute string early and the
remainder is rejected by the CSS parser (e.g. `[name="a"b"]`).  Modelled as:
the selector throws when the name contains a double-quote character. -/
def cssQuoteThrows (name : String) : Bool := name.data.contains '"'

/-- One iteration of the field-fill loop (lines 274-285): build the selector,
query (which can throw a SyntaxError that aborts the whole `page.evaluate`),
skip silently when nothing matches, otherwise dispatch on control kind. -/
def fillField (selThrows : String → Bool) (doc : List Control)
    (name : String) (v : FieldValue) : Except String (List Control) :=
  if selThrows name then Except.error selectorErrorMsg
  else
    match findControl doc name with
    | none => Except.ok doc
    | some i =>
      match doc.get? i with
      | none => Except.ok doc
      | some c => Except.ok (doc.set i (applyField c v))

/-- The whole field-fill pass (`for (const [name, value] of Object.entries(fields))`,
line 274): sequential, and the first in-page exception aborts the entire
mutation script. -/
def fillFields (selThrows : String → Bool) (doc : List Control) :
    List (String × FieldValue) → Except String (List Control)
  | [] => Except.ok doc
  | (n, v) :: rest =>
    match fillField selThrows doc n v with
    | Except.error e => Except.error e
    | Except.ok doc2 => fillFields selThrows doc2 rest

/-! ### Document Mutator: file-input rendering (lines 287-334) -/

/-- What the file-input pass leaves in the document for one
`input[type="file"]` (lines 289-333): nothing at all (the `if (!data) return;`
early exit, line 292 — the input stays visible), a wrapper of image slice
canvases plus the field-name label, a wrapper holding only the field-name
label when the image never fires `onload`, or the "Attached file" label plus
the field-name label for non-image data. -/
inductive FileInputRender
  | untouched
  | imageSliced (slices : List (ℚ × ℚ)) (nameLabel : String)
  | imagePendingLabel (nameLabel : String)
  | attachedFile (labelText : String) (nameLabel : String)
deriving DecidableEq

/-- The file-input pass for one input (lines 289-333).  `decode` is the
browser's image decoder: `some (w, h)` gives the natural dimensions when
`img.onload` fires, `none` when the data never loads.  `fieldData` is the
resolved-asset map (outer `none` = key absent, `some none` = JS `null`). -/
def renderFileInput (pw ph : ℚ) (decode : String → Option (ℚ × ℚ))
    (fieldData : String → Option (Option String)) (inputName : String) :
    FileInputRender :=
  let key := jsTrim inputName
  match fieldData key with
  | none => FileInputRender.untouched
  | some none => FileInputRender.untouched
  | some (some data) =>
    if data.data.isEmpty then FileInputRender.untouched
    else if strStarts data "data:image" then
      match decode data with
      | none => FileInputRender.imagePendingLabel key
      | some (w, h) =>
        FileInputRender.imageSliced (imageSlices ph (scaledHeight pw w h)) key
    else FileInputRender.attachedFile ("Attached file: " ++ key) key

/-- Whether the rendered result contains any text label naming the field
(the wrapper always receives the `nameLabel` div, lines 328-331, except on
the early return). -/
def hasFieldLabel : FileInputRender → Bool
  | FileInputRender.untouched => false
  | _ => true

/-! ### Document Mutator: signature canvases (lines 336-366) -/

/-- The DOM effect of the signature slicing loop on the siblings that follow
the original canvas (lines 352-364): every fragment is inserted with
`canvas.parentNode.insertBefore(sliceCanvas, canvas.nextSibling)`, i.e.
prepended to the list of nodes after the canvas, then `canvas.remove()`
deletes the original.  The result is the final list of nodes standing where
the canvas used to be, given the fragments in creation order and the
pre-existing followers. -/
def signatureReplacedSiblings (ph height : ℚ) (followers : List (ℚ × ℚ)) :
    List (ℚ × ℚ) :=
  (imageSlices ph height).foldl (fun acc s => s :: acc) followers

/-! ### Pipeline Orchestrator (`app.post('/pdf')`, lines 187-421) -/

/-- The externally observable operations of the handler, in program order. -/
inductive PdfAction
  | fetchAsset (key : String)
  | launchAttempt
  | newPageA
  | gotoUrl (waitUntil : String) (timeoutMs : ℕ)
  | setContentA (waitUntil : String)
  | emulatePrint
  | addStyle
  | evaluateMutate
  | pdfCapture
  | closeBrowser
  | pollReadiness
  | settleDelay
deriving DecidableEq

/-- The stages of the handler that can throw after validation. -/
inductive PdfStage
  | launchS
  | newPageS
  | loadS
  | emulateS
  | styleS
  | evaluateS
  | captureS
deriving DecidableEq

/-- The deserialized `POST /pdf` body (line 192):
`const { html, url, domainName, fields = {} } = req.body;`. -/
structure PdfRequest where
  html : Option String
  url : Option String
  domainName : Option String
  fields : List (String × FieldValue)

/-- What one request run produces, for the claims about validation, session
lifecycle and operation ordering. -/
structure PdfOutcome where
  status : ℕ
  sessionAcquired : Bool
  sessionClosed : Bool
  trace : List PdfAction
deriving DecidableEq

/-- JS truthiness of an optional string body member: absent and `""` are
falsy (`if (!html && !url)`, line 193). -/
def jsTruthyOpt : Option String → Bool
  | none => false
  | some s => !s.data.isEmpty

/-- The catch-block status mapping of the `/pdf` handler (lines 401-411):
400 for connection-refused / name-not-resolved messages, 408 for messages
containing "Timeout", 500 otherwise. -/
def statusForError (msg : String) : ℕ :=
  if jsIncludes msg "net::ERR_CONNECTION_REFUSED" ||
      jsIncludes msg "net::ERR_NAME_NOT_RESOLVED" then 400
  else if jsIncludes msg "Timeout" then 408
  else 500

/-- The fetch actions of the resolution loop together with the TypeError it
raises on the first truthy non-string value (line 207 is outside the inner
try/catch, so that throw escapes to the outer catch). -/
def resolveActions : List (String × FieldValue) → List PdfAction × Option String
  | [] => ([], none)
  | (k, v) :: rest =>
    match v with
    | FieldValue.boolean true => ([], some "data.startsWith is not a function")
    | FieldValue.str s =>
      if !s.data.isEmpty && hasScheme s then
        (PdfAction.fetchAsset k :: (resolveActions rest).1, (resolveActions rest).2)
      else resolveActions rest
    | _ => resolveActions rest

/-- Run the post-launch stages in order; the first stage named by `failAt`
throws (its attempt still appears in the trace), ending the sequence. -/
def runSteps (failAt : Option (PdfStage × String)) :
    List (PdfStage × PdfAction) → List PdfAction × Option String
  | [] => ([], none)
  | sa :: rest =>
    match failAt with
    | some fm =>
      if fm.1 = sa.1 then ([sa.2], some fm.2)
      else (sa.2 :: (runSteps (some fm) rest).1, (runSteps (some fm) rest).2)
    | none => (sa.2 :: (runSteps none rest).1, (runSteps none rest).2)

/-- The post-launch stages in source order (lines 238-390): `newPage`, then
`page.goto(url, { waitUntil: 'networkidle0', timeout: 60000 })` in URL mode or
`page.setContent(html, { waitUntil: 'networkidle0' })` otherwise, then
`emulateMediaType('print')`, `addStyleTag`, the mutation `page.evaluate`, and
`page.pdf`. -/
def pdfSteps (urlMode : Bool) : List (PdfStage × PdfAction) :=
  [(PdfStage.newPageS, PdfAction.newPageA),
   (PdfStage.loadS,
     if urlMode then PdfAction.gotoUrl "networkidle0" 60000
     else PdfAction.setContentA "networkidle0"),
   (PdfStage.emulateS, PdfAction.emulatePrint),
   (PdfStage.styleS, PdfAction.addStyle),
   (PdfStage.evaluateS, PdfAction.evaluateMutate),
   (PdfStage.captureS, PdfAction.pdfCapture)]

/-- The `/pdf` handler control flow (lines 187-421).  `urlOk` is the
`validateUrl` helper (lines 40-47): WHATWG URL parsing is platform library
behaviour, passed in as an oracle predicate.  `failAt` names the first
post-validation stage that throws, together with its error message; `none`
means every stage succeeds.  Validation (lines 193-201) can return 400 before
the fetch loop and before `launchBrowser` (line 236); every branch reaching
`finally` (lines 418-420) closes the browser exactly when `browser` was
assigned. -/
def runPdf (urlOk : String → Bool) (req : PdfRequest)
    (failAt : Option (PdfStage × String)) : PdfOutcome :=
  if jsTruthyOpt req.html = false ∧ jsTruthyOpt req.url = false then
    { status := 400, sessionAcquired := false, sessionClosed := false,
      trace := [] }
  else if jsTruthyOpt req.url = true ∧ urlOk (req.url.getD "") = false then
    { status := 400, sessionAcquired := false, sessionClosed := false,
      trace := [] }
  else
    match resolveActions req.fields with
    | (acts, some msg) =>
      { status := statusForError msg, sessionAcquired := false,
        sessionClosed := false, trace := acts }
    | (acts, none) =>
      match failAt with
      | some (PdfStage.launchS, msg) =>
        { status := statusForError msg, sessionAcquired := false,
          sessionClosed := false, trace := acts ++ [PdfAction.launchAttempt] }
      | fa =>
        { status :=
            match (runSteps fa (pdfSteps (jsTruthyOpt req.url))).2 with
            | some m => statusForError m
            | none => 200,
          sessionAcquired := true, sessionClosed := true,
          trace := acts ++ PdfAction.launchAttempt ::
            ((runSteps fa (pdfSteps (jsTruthyOpt req.url))).1 ++
              [PdfAction.closeBrowser]) }

/-- Readiness-gate operations (a poll of in-page busy indicators or a settle
delay); the spec describes them, so the action type can express them. -/
def isReadinessAction : PdfAction → Bool
  | PdfAction.pollReadiness => true
  | PdfAction.settleDelay => true
  | _ => false

/-- Whether a trace contains any readiness-gate operation. -/
def mentionsReadiness (t : List PdfAction) : Bool := t.any isReadinessAction

/-! ### Claim-side comparison definitions -/

/-- Lower-casing of a string for the claim-side case-insensitive comparison
(ASCII, which covers the claimed tokens). -/
def lowerStr (s : String) : String :=
  ⟨s.data.map (fun c => if c.isUpper then Char.ofNat (c.toNat + 32) else c)⟩

/-- The truthy-token predicate exactly as claim C5 states it (comparison
definition following the claim's words, for refutation): the value
case-insensitively matches one of `true`, `yes`, `on`, or is the literal
boolean `true`. -/
def claimTruthyTokens : FieldValue → Bool
  | FieldValue.boolean true => true
  | FieldValue.str s =>
    lowerStr s == "true" || lowerStr s == "yes" || lowerStr s == "on"
  | _ => false

/-! ### Helper lemmas about the slicing loop -/

/-- After one loop step the remaining height is still nonnegative. -/
theorem sliceStep_nonneg (ph yOff height : ℚ) :
    0 ≤ height - (yOff + min ph (height - yOff)) := by
  have h1 : min ph (height - yOff) ≤ height - yOff := min_le_right _ _
  linarith

/-- After one loop step the fuel bound decreases along with the fuel. -/
theorem sliceStep_bound (ph yOff height : ℚ) (hph : 0 < ph) (n : ℕ)
    (hle : height - yOff ≤ ((n : ℚ) + 1) * ph) :
    height - (yOff + min ph (height - yOff)) ≤ (n : ℚ) * ph := by
  rcases le_or_lt ph (height - yOff) with hc | hc
  · rw [min_eq_left hc]
    linarith
  · rw [min_eq_right hc.le]
    have h2 : (0 : ℚ) ≤ (n : ℚ) * ph := by positivity
    linarith

/-- The fuel of the embedded loop is an artifact: any fuel large enough for
the remaining height yields the same slice list, so `imageSlices` agrees with
the unbounded source loop. -/
theorem sliceLoop_fuel_irrelevant (ph : ℚ) (hph : 0 < ph) :
    ∀ (n : ℕ) (yOff height : ℚ), height - yOff ≤ (n : ℚ) * ph →
      ∀ m : ℕ, n ≤ m → sliceLoop ph m yOff height = sliceLoop ph n yOff height := by
  intro n
  induction n with
  | zero =>
    intro yOff height hle m _
    have hstop : ¬ yOff < height := by
      simp only [Nat.cast_zero, zero_mul] at hle
      intro hcon
      linarith
    cases m with
    | zero => rfl
    | succ m => simp only [sliceLoop, if_neg hstop]
  | succ n ih =>
    intro yOff height hle m hm
    obtain ⟨m', rfl⟩ : ∃ m', m = m' + 1 := ⟨m - 1, by omega⟩
    by_cases hlt : yOff < height
    · simp only [sliceLoop, if_pos hlt]
      push_cast at hle
      have hb := sliceStep_bound ph yOff height hph n hle
      rw [ih _ _ hb m' (by omega)]
    · simp only [sliceLoop, if_neg hlt]

/-- Sum of the slice heights: the loop consumes exactly the remaining
height. -/
theorem sliceLoop_sum (ph : ℚ) (hph : 0 < ph) :
    ∀ (n : ℕ) (yOff height : ℚ), 0 ≤ height - yOff →
      height - yOff ≤ (n : ℚ) * ph →
      ((sliceLoop ph n yOff height).map Prod.snd).sum = height - yOff := by
  intro n
  induction n with
  | zero =>
    intro yOff height h0 hle
    simp only [Nat.cast_zero, zero_mul] at hle
    simp only [sliceLoop, List.map_nil, List.sum_nil]
    linarith
  | succ n ih =>
    intro yOff height h0 hle
    push_cast at hle
    by_cases hlt : yOff < height
    · simp only [sliceLoop, if_pos hlt, List.map_cons, List.sum_cons]
      rw [ih _ _ (sliceStep_nonneg ph yOff height)
        (sliceStep_bound ph yOff height hph n hle)]
      ring
    · simp only [sliceLoop, if_neg hlt, List.map_nil, List.sum_nil]
      have : height ≤ yOff := not_lt.mp hlt
      linarith

/-- Number of slices: the loop runs exactly `⌈remaining / ph⌉` times. -/
theorem sliceLoop_length (ph : ℚ) (hph : 0 < ph) :
    ∀ (n : ℕ) (yOff height : ℚ), 0 ≤ height - yOff →
      height - yOff ≤ (n : ℚ) * ph →
      (sliceLoop ph n yOff height).length =
        (Int.ceil ((height - yOff) / ph)).toNat := by
  intro n
  induction n with
  | zero =>
    intro yOff height h0 hle
    simp only [Nat.cast_zero, zero_mul] at hle
    have hz : height - yOff = 0 := le_antisymm hle h0
    simp [sliceLoop, hz]
  | succ n ih =>
    intro yOff height h0 hle
    push_cast at hle
    by_cases hlt : yOff < height
    · simp only [sliceLoop, if_pos hlt, List.length_cons]
      rcases le_or_lt ph (height - yOff) with hc | hc
      · rw [min_eq_left hc]
        have hrec := ih (yOff + ph) height (by linarith) (by linarith)
        rw [hrec]
        have hdiv : (height - yOff) / ph = (height - (yOff + ph)) / ph + 1 := by
          field_simp
          ring
        have hnn : (0 : ℤ) ≤ Int.ceil ((height - (yOff + ph)) / ph) :=
          Int.ceil_nonneg (div_nonneg (by linarith) hph.le)
        rw [hdiv, Int.ceil_add_one]
        omega
      · rw [min_eq_right hc.le]
        have h2 : yOff + (height - yOff) = height := by ring
        rw [h2]
        have hrec := ih height height (by simp) (by rw [sub_self]; positivity)
        simp only [sub_self, zero_div, Int.ceil_zero, Int.toNat_zero] at hrec
        rw [hrec]
        have hone : Int.ceil ((height - yOff) / ph) = 1 := by
          rw [Int.ceil_eq_iff]
          constructor
          · push_cast
            have : (0 : ℚ) < (height - yOff) / ph := div_pos (by linarith) hph
            linarith
          · push_cast
            rw [div_le_one hph]
            linarith
        rw [hone]
        rfl
    · simp only [sliceLoop, if_neg hlt, List.length_nil]
      have hz : height - yOff = 0 := le_antisymm (by linarith [not_lt.mp hlt]) h0
      simp [hz]

/-- Each slice starts at the running offset: the accumulated heights of the
slices before it (no gap, no overlap). -/
theorem sliceLoop_fst (ph : ℚ) :
    ∀ (n : ℕ) (yOff height : ℚ) (i : ℕ) (p : ℚ × ℚ),
      (sliceLoop ph n yOff height)[i]? = some p →
      p.1 = yOff + (((sliceLoop ph n yOff height).take i).map Prod.snd).sum := by
  intro n
  induction n with
  | zero =>
    intro yOff height i p hp
    simp [sliceLoop] at hp
  | succ n ih =>
    intro yOff height i p hp
    by_cases hlt : yOff < height
    · simp only [sliceLoop, if_pos hlt] at hp ⊢
      cases i with
      | zero =>
        simp only [List.getElem?_cons_zero, Option.some.injEq] at hp
        simp [← hp]
      | succ i =>
        simp only [List.getElem?_cons_succ] at hp
        simp only [List.take_succ_cons, List.map_cons, List.sum_cons]
        rw [ih _ _ i p hp]
        ring
    · simp [sliceLoop, if_neg hlt] at hp

/-- Each slice height is the minimum of the page content height and the
remaining height below the slice's own offset. -/
theorem sliceLoop_snd (ph : ℚ) :
    ∀ (n : ℕ) (yOff height : ℚ) (i : ℕ) (p : ℚ × ℚ),
      (sliceLoop ph n yOff height)[i]? = some p →
      p.2 = min ph (height - p.1) := by
  intro n
  induction n with
  | zero =>
    intro yOff height i p hp
    simp [sliceLoop] at hp
  | succ n ih =>
    intro yOff height i p hp
    by_cases hlt : yOff < height
    · simp only [sliceLoop, if_pos hlt] at hp
      cases i with
      | zero =>
        simp only [List.getElem?_cons_zero, Option.some.injEq] at hp
        simp [← hp]
      | succ i =>
        simp only [List.getElem?_cons_succ] at hp
        exact ih _ _ i p hp
    · simp [sliceLoop, if_neg hlt] at hp

/-- Every slice has positive height. -/
theorem sliceLoop_snd_pos (ph : ℚ) (hph : 0 < ph) :
    ∀ (n : ℕ) (yOff height : ℚ) (p : ℚ × ℚ),
      p ∈ sliceLoop ph n yOff height → 0 < p.2 := by
  intro n
  induction n with
  | zero =>
    intro yOff height p hp
    simp [sliceLoop] at hp
  | succ n ih =>
    intro yOff height p hp
    by_cases hlt : yOff < height
    · simp only [sliceLoop, if_pos hlt, List.mem_cons] at hp
      rcases hp with hp | hp
      · rw [hp]
        exact lt_min hph (by linarith)
      · exact ih _ _ p hp
    · simp [sliceLoop, if_neg hlt] at hp

/-- The fuel `sliceCount` is large enough for the whole scaled height. -/
theorem le_sliceCount_mul (ph height : ℚ) (hph : 0 < ph) (h0 : 0 ≤ height) :
    height ≤ (sliceCount ph height : ℚ) * ph := by
  have hnn : (0 : ℤ) ≤ Int.ceil (height / ph) :=
    Int.ceil_nonneg (div_nonneg h0 hph.le)
  have hcast : ((sliceCount ph height : ℕ) : ℚ) =
      ((Int.ceil (height / ph) : ℤ) : ℚ) := by
    rw [sliceCount]
    exact_mod_cast congrArg (fun z : ℤ => (z : ℚ)) (Int.toNat_of_nonneg hnn)
  rw [hcast]
  have hle := Int.le_ceil (height / ph)
  calc height = height / ph * ph := by field_simp
    _ ≤ ((Int.ceil (height / ph) : ℤ) : ℚ) * ph :=
        mul_le_mul_of_nonneg_right hle hph.le

/-! ### Helper lemmas about strings, the resolver and the handler trace -/

/-- A string passing the scheme test of line 207 is nonempty. -/
theorem hasScheme_nonempty (s : String) (h : hasScheme s = true) :
    s.data.isEmpty = false := by
  cases hd : s.data with
  | nil =>
    exfalso
    rw [hasScheme, strStarts, strStarts, hd] at h
    have e1 : listIsPre "http://".data [] = false := rfl
    have e2 : listIsPre "https://".data [] = false := rfl
    rw [e1, e2] at h
    simp at h
  | cons a as => simp

/-- Concrete evaluation of the slicing loop at page content height 762 and
scaled height 1000: two slices, of heights 762 and 238, at offsets 0 and
762. -/
theorem imageSlices_at_1000 :
    imageSlices PAGE_HEIGHT 1000 = [(0, 762), (762, 238)] := by
  have e : PAGE_HEIGHT = (762 : ℚ) := by norm_num [PAGE_HEIGHT, PDF_MARGIN]
  have hc : Int.ceil ((1000 : ℚ) / 762) = 2 := by
    rw [Int.ceil_eq_iff]
    norm_num
  have hsc : sliceCount 762 1000 = 2 := by
    rw [sliceCount, hc]
    rfl
  rw [e, imageSlices, hsc]
  norm_num [sliceLoop, min_def]

/-- Folding `insertBefore(·, canvas.nextSibling)` over a list prepends each
element in turn, reversing the list onto the accumulator. -/
theorem foldl_cons_reverse (l acc : List (ℚ × ℚ)) :
    l.foldl (fun a s => s :: a) acc = l.reverse ++ acc := by
  induction l generalizing acc with
  | nil => simp
  | cons x xs ih => simp [List.foldl_cons, ih]

/-- The resolution loop only emits fetch actions, never readiness-gate
operations. -/
theorem resolveActions_fetch_only (l : List (String × FieldValue)) :
    ∀ a ∈ (resolveActions l).1, isReadinessAction a = false := by
  induction l with
  | nil =>
    intro a ha
    simp [resolveActions] at ha
  | cons kv rest ih =>
    intro a ha
    obtain ⟨k, v⟩ := kv
    cases v with
    | str s =>
      simp only [resolveActions] at ha
      by_cases hc : (!s.data.isEmpty && hasScheme s) = true
      · rw [if_pos hc] at ha
        rcases List.mem_cons.mp ha with h | h
        · rw [h]
          rfl
        · exact ih a h
      · rw [if_neg hc] at ha
        exact ih a ha
    | boolean b =>
      cases b with
      | false => exact ih a (by simpa [resolveActions] using ha)
      | true => simp [resolveActions] at ha
    | null => exact ih a (by simpa [resolveActions] using ha)

/-- The post-launch step runner only emits the actions of its step list. -/
theorem runSteps_no_readiness (failAt : Option (PdfStage × String)) :
    ∀ steps : List (PdfStage × PdfAction),
      (∀ sa ∈ steps, isReadinessAction sa.2 = false) →
      ∀ a ∈ (runSteps failAt steps).1, isReadinessAction a = false := by
  intro steps
  induction steps with
  | nil =>
    intro _ a ha
    cases failAt <;> simp [runSteps] at ha
  | cons sa rest ih =>
    intro hs a ha
    have hhd : isReadinessAction sa.2 = false := hs sa (List.mem_cons_self _ _)
    have htl : ∀ x ∈ rest, isReadinessAction x.2 = false :=
      fun x hx => hs x (List.mem_cons_of_mem _ hx)
    cases hfa : failAt with
    | none =>
      rw [hfa] at ha
      simp only [runSteps] at ha
      rcases List.mem_cons.mp ha with h | h
      · rw [h]; exact hhd
      · exact ih htl a (by rw [hfa]; exact h)
    | some fm =>
      rw [hfa] at ha
      simp only [runSteps] at ha
      by_cases he : fm.1 = sa.1
      · rw [if_pos he] at ha
        rcases List.mem_cons.mp ha with h | h
        · rw [h]; exact hhd
        · simp at h
      · rw [if_neg he] at ha
        rcases List.mem_cons.mp ha with h | h
        · rw [h]; exact hhd
        · exact ih htl a (by rw [hfa]; exact h)

/-- The stage list of the handler contains no readiness-gate operation. -/
theorem pdfSteps_no_readiness (b : Bool) :
    ∀ sa ∈ pdfSteps b, isReadinessAction sa.2 = false := by
  cases b <;> decide

/-- Readiness mention of a trace, elementwise. -/
theorem mentionsReadiness_eq_false (t : List PdfAction) :
    mentionsReadiness t = false ↔ ∀ a ∈ t, isReadinessAction a = false := by
  simp [mentionsReadiness, List.any_eq_false]

/-- The resolution loop over throw-free fields never aborts and produces
exactly the per-entry results, independently of one another. -/
theorem resolveFields_ok (f : String → FetchOutcome) :
    ∀ l : List (String × FieldValue), (∀ kv ∈ l, fvThrows kv.2 = false) →
      resolveFields f l = Except.ok (l.filterMap (resolveEntryOk f)) := by
  intro l
  induction l with
  | nil => intro _; rfl
  | cons kv rest ih =>
    intro hl
    obtain ⟨k, v⟩ := kv
    have hkv : fvThrows v = false := hl (k, v) (List.mem_cons_self _ _)
    have hrest := ih (fun x hx => hl x (List.mem_cons_of_mem _ hx))
    simp only [resolveFields, hkv, Bool.false_eq_true, if_false, List.filterMap_cons]
    cases hm : (resolveField f v).1 with
    | none =>
      simp only [resolveEntryOk, hm]
      exact hrest
    | some d =>
      simp only [resolveEntryOk, hm, hrest, Except.map]

/-! ### Claim theorems -/

/-- C1: for every image whose scaled height exceeds one page's content
height, the slicing loop produces exactly `⌈scaledHeight / pageContentHeight⌉`
slices; each slice starts exactly where the previous one ended (its offset is
the sum of the heights of the slices before it — no gap, no overlap); each
slice height is `min(pageContentHeight, remaining height)`; every slice is of
positive height; and the slice heights sum to the scaled height exactly. -/
theorem C1_slice_partition (pw w h H : ℚ) (hH : H = scaledHeight pw w h)
    (hover : PAGE_HEIGHT < H) :
    (imageSlices PAGE_HEIGHT H).length = (Int.ceil (H / PAGE_HEIGHT)).toNat
  ∧ ((imageSlices PAGE_HEIGHT H).map Prod.snd).sum = H
  ∧ (∀ (i : ℕ) (hi : i < (imageSlices PAGE_HEIGHT H).length),
      ((imageSlices PAGE_HEIGHT H).get ⟨i, hi⟩).1 =
          (((imageSlices PAGE_HEIGHT H).take i).map Prod.snd).sum
    ∧ ((imageSlices PAGE_HEIGHT H).get ⟨i, hi⟩).2 =
          min PAGE_HEIGHT (H - ((imageSlices PAGE_HEIGHT H).get ⟨i, hi⟩).1))
  ∧ (∀ p ∈ imageSlices PAGE_HEIGHT H, 0 < p.2) := by
  have hph : (0 : ℚ) < PAGE_HEIGHT := by norm_num [PAGE_HEIGHT, PDF_MARGIN]
  unfold imageSlices
  have h0 : (0 : ℚ) ≤ H - 0 := by
    rw [sub_zero]
    exact le_of_lt (lt_trans hph hover)
  have hbound : H - 0 ≤ (sliceCount PAGE_HEIGHT H : ℚ) * PAGE_HEIGHT := by
    rw [sub_zero]
    exact le_sliceCount_mul PAGE_HEIGHT H hph (by linarith)
  refine ⟨?_, ?_, ?_, ?_⟩
  · have hl := sliceLoop_length PAGE_HEIGHT hph (sliceCount PAGE_HEIGHT H) 0 H h0 hbound
    simpa using hl
  · have hs := sliceLoop_sum PAGE_HEIGHT hph (sliceCount PAGE_HEIGHT H) 0 H h0 hbound
    simpa using hs
  · intro i hi
    have hp : (sliceLoop PAGE_HEIGHT (sliceCount PAGE_HEIGHT H) 0 H)[i]? =
        some ((sliceLoop PAGE_HEIGHT (sliceCount PAGE_HEIGHT H) 0 H).get ⟨i, hi⟩) := by
      rw [List.getElem?_eq_getElem hi]
      rfl
    constructor
    · have hfst := sliceLoop_fst PAGE_HEIGHT (sliceCount PAGE_HEIGHT H) 0 H i _ hp
      simpa using hfst
    · exact sliceLoop_snd PAGE_HEIGHT (sliceCount PAGE_HEIGHT H) 0 H i _ hp
  · intro p hp
    exact sliceLoop_snd_pos PAGE_HEIGHT hph (sliceCount PAGE_HEIGHT H) 0 H p hp

/-- Witness for C1 at a concrete image: natural size 515×1000 at page content
width 515 gives scale 1 and scaled height 1000 > 762; the hypotheses hold and
the slice list evaluates to two slices of heights 762 and 238 summing to
1000. -/
theorem C1_witness :
    ((1000 : ℚ) = scaledHeight PAGE_WIDTH 515 1000 ∧ PAGE_HEIGHT < (1000 : ℚ))
  ∧ imageSlices PAGE_HEIGHT 1000 = [(0, 762), (762, 238)]
  ∧ ((imageSlices PAGE_HEIGHT 1000).map Prod.snd).sum = 1000
  ∧ (imageSlices PAGE_HEIGHT 1000).length = (Int.ceil ((1000 : ℚ) / PAGE_HEIGHT)).toNat := by
  have h1 : (1000 : ℚ) = scaledHeight PAGE_WIDTH 515 1000 := by
    rw [scaledHeight]
    norm_num [PAGE_WIDTH, PDF_MARGIN]
  have h2 : PAGE_HEIGHT < (1000 : ℚ) := by norm_num [PAGE_HEIGHT, PDF_MARGIN]
  exact ⟨⟨h1, h2⟩, imageSlices_at_1000,
    (C1_slice_partition PAGE_WIDTH 515 1000 1000 h1 h2).2.1,
    (C1_slice_partition PAGE_WIDTH 515 1000 1000 h1 h2).1⟩

/-- C8 (code behaviour at the failing input): for a signature canvas whose
resolved image has scaled height 1000 (two slices), the slices are created
top-to-bottom — offsets 0 then 762 — but each `insertBefore(sliceCanvas,
canvas.nextSibling)` prepends to the nodes after the canvas, so after
`canvas.remove()` the document order is reversed: the slice at offset 762
stands first and the slice at offset 0 second, for any pre-existing following
siblings. -/
theorem C8_signature_slice_order :
    imageSlices PAGE_HEIGHT 1000 = [(0, 762), (762, 238)]
  ∧ signatureReplacedSiblings PAGE_HEIGHT 1000 [] = [(762, 238), (0, 762)]
  ∧ (∀ fw : List (ℚ × ℚ),
      signatureReplacedSiblings PAGE_HEIGHT 1000 fw = [(762, 238), (0, 762)] ++ fw) := by
  refine ⟨imageSlices_at_1000, ?_, ?_⟩
  · rw [signatureReplacedSiblings, imageSlices_at_1000]
    rfl
  · intro fw
    rw [signatureReplacedSiblings, imageSlices_at_1000, foldl_cons_reverse]
    rfl

/-- C9: the browser session is closed exactly when it was acquired, on every
exit path of the handler — validation rejections and pre-launch throws never
acquire one, and every path that launches the browser reaches the `finally`
close, whether the later stages succeed or throw. -/
theorem C9_session_cleanup (urlOk : String → Bool) (req : PdfRequest)
    (failAt : Option (PdfStage × String)) :
    (runPdf urlOk req failAt).sessionClosed = (runPdf urlOk req failAt).sessionAcquired := by
  unfold runPdf
  split
  · rfl
  split
  · rfl
  split
  · rfl
  split
  · rfl
  · rfl

/-- C2 (amended): the handler rejects with 400 before any fetch and before
any browser launch exactly for the two validation failures it actually
checks — neither `html` nor `url` truthy, or `url` truthy but failing URL
validation; when `html` and `url` are both supplied (and the url validates),
the request is NOT rejected: the pipeline proceeds to a launch attempt, with
`url` taking precedence. -/
theorem C2_validation (urlOk : String → Bool) (req : PdfRequest)
    (failAt : Option (PdfStage × String)) :
    ((jsTruthyOpt req.html = false ∧ jsTruthyOpt req.url = false) ∨
        (jsTruthyOpt req.url = true ∧ urlOk (req.url.getD "") = false) →
      (runPdf urlOk req failAt).status = 400 ∧
      (runPdf urlOk req failAt).sessionAcquired = false ∧
      (runPdf urlOk req failAt).trace = [])
  ∧ (jsTruthyOpt req.html = true ∧ jsTruthyOpt req.url = true ∧
        urlOk (req.url.getD "") = true ∧ (resolveActions req.fields).2 = none →
      PdfAction.launchAttempt ∈ (runPdf urlOk req failAt).trace) := by
  constructor
  · intro hrej
    rcases hrej with ⟨h1, h2⟩ | ⟨h1, h2⟩
    · unfold runPdf
      rw [if_pos ⟨h1, h2⟩]
      exact ⟨rfl, rfl, rfl⟩
    · unfold runPdf
      rw [if_neg (by intro hc; rw [h1] at hc; simp at hc), if_pos ⟨h1, h2⟩]
      exact ⟨rfl, rfl, rfl⟩
  · rintro ⟨h1, h2, h3, h4⟩
    unfold runPdf
    rw [if_neg (by intro hc; rw [h1] at hc; simp at hc),
      if_neg (by intro hc; rw [h3] at hc; simp at hc)]
    cases hres : resolveActions req.fields with
    | mk acts err =>
      cases err with
      | some m =>
        exfalso
        rw [hres] at h4
        simp at h4
      | none =>
        cases failAt with
        | none => simp
        | some fm =>
          obtain ⟨st, msg⟩ := fm
          cases st <;> simp

/-- Counterexample to C2 as stated: a request carrying BOTH `html` and a
valid `url` is, per the claim, invalid and must be rejected with 400 before
session acquisition — but the handler only checks `!html && !url`, so this
request sails through validation: with all stages succeeding it returns 200
and a browser session is acquired. -/
theorem C2_counterexample :
    (runPdf (fun _ => true)
      { html := some "<p>x</p>", url := some "http://example.com",
        domainName := none, fields := [] } none).status = 200
  ∧ (runPdf (fun _ => true)
      { html := some "<p>x</p>", url := some "http://example.com",
        domainName := none, fields := [] } none).sessionAcquired = true :=
  ⟨rfl, rfl⟩

/-- Witness for C2 (amended) at concrete requests: a request with neither
source field is rejected with 400, no session and an empty trace; a request
with both fields present proceeds to a launch attempt. -/
theorem C2_witness :
    ((runPdf (fun _ => true)
        { html := none, url := none, domainName := none, fields := [] }
        none).status = 400
  ∧ (runPdf (fun _ => true)
        { html := none, url := none, domainName := none, fields := [] }
        none).sessionAcquired = false
  ∧ (runPdf (fun _ => true)
        { html := none, url := none, domainName := none, fields := [] }
        none).trace = [])
  ∧ PdfAction.launchAttempt ∈ (runPdf (fun _ => true)
      { html := some "<p>x</p>", url := some "http://e.com", domainName := none,
        fields := [] } none).trace := by
  constructor
  · exact (C2_validation (fun _ => true)
      { html := none, url := none, domainName := none, fields := [] } none).1
      (Or.inl ⟨rfl, rfl⟩)
  · exact (C2_validation (fun _ => true)
      { html := some "<p>x</p>", url := some "http://e.com", domainName := none,
        fields := [] } none).2 ⟨rfl, rfl, rfl, rfl⟩

/-- C7 (amended): the pipeline performs no in-page readiness polling and no
settle delay on any request: no trace of the handler ever contains a
readiness-gate operation.  Load completion is the only wait (the
`networkidle0` signal of `page.goto`/`page.setContent`), after which the
handler proceeds directly to print-media emulation, style injection and
mutation. -/
theorem C7_no_readiness_gate (urlOk : String → Bool) (req : PdfRequest)
    (failAt : Option (PdfStage × String)) :
    mentionsReadiness (runPdf urlOk req failAt).trace = false := by
  unfold runPdf
  split
  · rfl
  split
  · rfl
  split
  case _ acts msg heq =>
    have h1 : (resolveActions req.fields).1 = acts := by rw [heq]
    rw [mentionsReadiness_eq_false]
    intro a ha
    exact resolveActions_fetch_only req.fields a (h1 ▸ ha)
  case _ acts heq =>
    have h1 : (resolveActions req.fields).1 = acts := by rw [heq]
    split
    · rw [mentionsReadiness_eq_false]
      intro a ha
      rcases List.mem_append.mp ha with h | h
      · exact resolveActions_fetch_only req.fields a (h1 ▸ h)
      · rcases List.mem_singleton.mp h with rfl
        rfl
    · rw [mentionsReadiness_eq_false]
      intro a ha
      rcases List.mem_append.mp ha with h | h
      · exact resolveActions_fetch_only req.fields a (h1 ▸ h)
      · rcases List.mem_cons.mp h with rfl | h
        · rfl
        · rcases List.mem_append.mp h with h | h
          · exact runSteps_no_readiness _ _ (pdfSteps_no_readiness _) a h
          · rcases List.mem_singleton.mp h with rfl
            rfl

/-- Counterexample to C7 as stated: on a concrete inline-markup request the
complete operation trace is load, print emulation, style injection, mutation,
capture and close — no 300 ms readiness poll, no 30 s readiness timeout, no
settle delay occurs between load and mutation. -/
theorem C7_counterexample :
    (runPdf (fun _ => true)
      { html := some "<p>x</p>", url := none, domainName := none, fields := [] }
      none).trace =
      [PdfAction.launchAttempt, PdfAction.newPageA,
       PdfAction.setContentA "networkidle0", PdfAction.emulatePrint,
       PdfAction.addStyle, PdfAction.evaluateMutate, PdfAction.pdfCapture,
       PdfAction.closeBrowser]
  ∧ mentionsReadiness (runPdf (fun _ => true)
      { html := some "<p>x</p>", url := none, domainName := none, fields := [] }
      none).trace = false :=
  ⟨rfl, rfl⟩

/-- C3: for every non-throwing field value, the Asset Resolver issues an
outbound fetch if and only if the value is a non-empty string carrying an
`http://` or `https://` scheme prefix, and whenever no fetch is issued the
entry contributes nothing to the resolved mapping (pass-through). -/
theorem C3_fetch_iff (f : String → FetchOutcome) (v : FieldValue)
    (hv : fvThrows v = false) :
    ((resolveField f v).2 = true ↔
      ∃ s, v = FieldValue.str s ∧ s.data.isEmpty = false ∧ hasScheme s = true)
  ∧ ((resolveField f v).2 = false → (resolveField f v).1 = none) := by
  cases v with
  | null =>
    refine ⟨?_, fun _ => rfl⟩
    simp [resolveField]
  | boolean b =>
    refine ⟨?_, fun _ => rfl⟩
    simp [resolveField]
  | str s =>
    by_cases he : s.data.isEmpty
    · constructor
      · simp only [resolveField, if_pos he]
        constructor
        · intro h
          exact absurd h (by simp)
        · rintro ⟨s', hs', hne, _⟩
          cases hs'
          rw [he] at hne
          exact absurd hne (by simp)
      · intro _
        simp only [resolveField, if_pos he]
    · by_cases hs : hasScheme s
      · constructor
        · constructor
          · intro _
            exact ⟨s, rfl, by simpa using he, hs⟩
          · intro _
            simp only [resolveField, if_neg he, if_pos hs]
            cases hf : f s with
            | networkError m => rfl
            | response st t => cases t <;> rfl
        · intro hfl
          exfalso
          simp only [resolveField, if_neg he, if_pos hs] at hfl
          cases hf : f s with
          | networkError m => rw [hf] at hfl; simp at hfl
          | response st t =>
            cases t <;> (rw [hf] at hfl; simp at hfl)
      · constructor
        · simp only [resolveField, if_neg he, if_neg hs]
          constructor
          · intro h
            exact absurd h (by simp)
          · rintro ⟨s', hs', _, hsch⟩
            cases hs'
            exact absurd hsch (by simp [hs])
        · intro _
          simp only [resolveField, if_neg he, if_neg hs]

/-- Witness for C3 at a concrete non-scheme value: `ftp://x` is a non-throwing
truthy string without an http(s) prefix, no fetch is issued, and the entry is
passed through with no resolved-mapping entry. -/
theorem C3_witness :
    fvThrows (FieldValue.str "ftp://x") = false
  ∧ (resolveField (fun _ => FetchOutcome.networkError "down")
      (FieldValue.str "ftp://x")).2 = false
  ∧ (resolveField (fun _ => FetchOutcome.networkError "down")
      (FieldValue.str "ftp://x")).1 = none :=
  ⟨rfl, rfl,
    (C3_fetch_iff (fun _ => FetchOutcome.networkError "down")
      (FieldValue.str "ftp://x") rfl).2 rfl⟩

/-- C4 (amended): no single fetch outcome aborts the resolution loop — over
throw-free fields the loop always completes with the independent per-entry
results; a rejected fetch promise (network error) and a throwing body decode
both store JS `null`; but the response status is never inspected, so a
non-2xx response is NOT stored as `null` (see the counterexample). -/
theorem C4_failure_handling (f : String → FetchOutcome)
    (l : List (String × FieldValue))
    (hl : ∀ kv ∈ l, fvThrows kv.2 = false) :
    resolveFields f l = Except.ok (l.filterMap (resolveEntryOk f))
  ∧ (∀ s msg, hasScheme s = true → f s = FetchOutcome.networkError msg →
      resolveField f (FieldValue.str s) = (some none, true))
  ∧ (∀ s st, hasScheme s = true → f s = FetchOutcome.response st none →
      resolveField f (FieldValue.str s) = (some none, true)) := by
  refine ⟨resolveFields_ok f l hl, ?_, ?_⟩
  · intro s msg hsch hf
    rw [resolveField]
    rw [if_neg (by rw [hasScheme_nonempty s hsch]; simp), if_pos hsch, hf]
  · intro s st hsch hf
    rw [resolveField]
    rw [if_neg (by rw [hasScheme_nonempty s hsch]; simp), if_pos hsch, hf]

/-- Counterexample to C4 as stated: a fetch that resolves with a non-2xx
response (here status 500 with body "Internal Server Error") is claimed to
store `null` — but the loop never checks `response.status` and stores the
response body text instead; `some (some body)` is a different stored value
than the claimed `some none` (JS `null`). -/
theorem C4_counterexample :
    resolveField (fun _ => FetchOutcome.response 500 (some "Internal Server Error"))
      (FieldValue.str "https://asset") = (some (some "Internal Server Error"), true)
  ∧ ((some (some "Internal Server Error") : Option (Option String)) ==
      (some none : Option (Option String))) = false :=
  ⟨rfl, rfl⟩

/-- Witness for C4 (amended) at a concrete field list: one scheme-prefixed
field whose fetch rejects resolves to `null`, the loop completes, and the
resolved mapping evaluates to exactly that entry. -/
theorem C4_witness :
    (∀ kv ∈ [(("a" : String), FieldValue.str "https://asset")], fvThrows kv.2 = false)
  ∧ resolveFields (fun _ => FetchOutcome.networkError "down")
      [("a", FieldValue.str "https://asset")] =
      Except.ok [("a", (none : Option String))]
  ∧ resolveField (fun _ => FetchOutcome.networkError "down")
      (FieldValue.str "https://asset") = (some none, true) := by
  refine ⟨by decide, ?_, ?_⟩
  · have h := (C4_failure_handling (fun _ => FetchOutcome.networkError "down")
      [("a", FieldValue.str "https://asset")] (by decide)).1
    rw [h]
    rfl
  · exact (C4_failure_handling (fun _ => FetchOutcome.networkError "down")
      [("a", FieldValue.str "https://asset")] (by decide)).2.1
      "https://asset" "down" rfl rfl

/-- C5 (amended): a checkbox or radio control matched in the field-fill pass
is set to checked exactly when the value is the literal boolean `true` or one
of the exact, case-sensitive strings `"Yes"` or `"true"` (strict `===`
comparisons); there is no case-insensitive matching and no `on` token. -/
theorem C5_checkbox_tokens (c : Control) (v : FieldValue)
    (h : c.kind = ControlKind.checkbox ∨ c.kind = ControlKind.radio) :
    ((applyField c v).checked = true ↔
      (v = FieldValue.boolean true ∨ v = FieldValue.str "Yes" ∨
        v = FieldValue.str "true")) := by
  have hc : (applyField c v).checked = checkboxChecked v := by
    rcases h with h | h <;> simp [applyField, h]
  rw [hc]
  cases v with
  | boolean b => cases b <;> simp [checkboxChecked]
  | null => simp [checkboxChecked]
  | str s => simp [checkboxChecked]

/-- Counterexample to C5 as stated: the value `"on"` is in the claimed
case-insensitive truthy-token set, yet the code leaves the matched checkbox
unchecked. -/
theorem C5_counterexample :
    claimTruthyTokens (FieldValue.str "on") = true
  ∧ (applyField
      { nameAttr := some "cb", idAttr := none, kind := ControlKind.checkbox,
        value := "", checked := false, selectedOption := none }
      (FieldValue.str "on")).checked = false :=
  ⟨rfl, rfl⟩

/-- Witness for C5 (amended) at a concrete checkbox: the exact string "Yes"
checks the control. -/
theorem C5_witness :
    (applyField
      { nameAttr := some "cb", idAttr := none, kind := ControlKind.checkbox,
        value := "", checked := false, selectedOption := none }
      (FieldValue.str "Yes")).checked = true :=
  (C5_checkbox_tokens
    { nameAttr := some "cb", idAttr := none, kind := ControlKind.checkbox,
      value := "", checked := false, selectedOption := none }
    (FieldValue.str "Yes") (Or.inl rfl)).mpr (Or.inr (Or.inl rfl))

/-- C6 (amended): for a file input whose field asset is missing, `null` or
empty, the Document Mutator takes the `if (!data) return;` early exit: the
input is left untouched — no placeholder label is rendered, the input is not
even hidden — and no exception is thrown (the pass is total); the
"Attached file" label naming the field appears only for truthy non-image
data. -/
theorem C6_missing_asset (pw ph : ℚ) (decode : String → Option (ℚ × ℚ))
    (fieldData : String → Option (Option String)) (inputName : String)
    (h : fieldData (jsTrim inputName) = none ∨
         fieldData (jsTrim inputName) = some none ∨
         fieldData (jsTrim inputName) = some (some "")) :
    renderFileInput pw ph decode fieldData inputName = FileInputRender.untouched := by
  rcases h with h | h | h <;> simp [renderFileInput.eq_def, h]

/-- Counterexample to C6 as stated: for a file input named "sig" whose
resolved asset is `null` (failed fetch), the claim requires a rendered text
placeholder naming the field — but the code renders nothing at all: the
result is the untouched input, which carries no field label. -/
theorem C6_counterexample :
    renderFileInput PAGE_WIDTH PAGE_HEIGHT (fun _ => none)
      (fun k => if k == "sig" then some none else none) "sig" =
      FileInputRender.untouched
  ∧ hasFieldLabel (renderFileInput PAGE_WIDTH PAGE_HEIGHT (fun _ => none)
      (fun k => if k == "sig" then some none else none) "sig") = false :=
  ⟨rfl, rfl⟩

/-- Witness for C6 (amended) at a concrete input: a constant `null` asset map
leaves the "sig" file input untouched. -/
theorem C6_witness :
    ((fun _ => (some none : Option (Option String))) (jsTrim "sig") =
      some none)
  ∧ renderFileInput PAGE_WIDTH PAGE_HEIGHT (fun _ => none)
      (fun _ => some none) "sig" = FileInputRender.untouched :=
  ⟨rfl, C6_missing_asset PAGE_WIDTH PAGE_HEIGHT (fun _ => none)
    (fun _ => some none) "sig" (Or.inr (Or.inl rfl))⟩

/-- C10: the field-fill pass is not total over field names.  The field name
`a"b` makes the interpolated selector `[name="a"b"]` invalid, the in-page
`querySelector` throws, the whole mutation pass aborts with that error before
any later field (here `ok`) is processed, and the handler's catch block maps
the message (no `net::` marker, no "Timeout") to a 500 response — with the
browser session still closed by `finally`. -/
theorem C10_selector_abort :
    cssQuoteThrows "a\"b" = true
  ∧ fillFields cssQuoteThrows
      [{ nameAttr := some "ok", idAttr := none, kind := ControlKind.valueInput,
         value := "", checked := false, selectedOption := none }]
      [("a\"b", FieldValue.str "v"), ("ok", FieldValue.str "w")] =
      Except.error selectorErrorMsg
  ∧ statusForError selectorErrorMsg = 500
  ∧ (runPdf (fun _ => true)
      { html := some "<form></form>", url := none, domainName := none,
        fields := [("x", FieldValue.str "v")] }
      (some (PdfStage.evaluateS, selectorErrorMsg))).status = 500
  ∧ (runPdf (fun _ => true)
      { html := some "<form></form>", url := none, domainName := none,
        fields := [("x", FieldValue.str "v")] }
      (some (PdfStage.evaluateS, selectorErrorMsg))).sessionClosed = true :=
  ⟨rfl, rfl, rfl, rfl, rfl⟩
